import Mathlib

/-
  Verification development for the drti decoration pass
  (src/passes/drti-decorate.cpp).

  The pass is shallowly embedded: LLVM modules, functions, basic blocks and
  the instructions relevant to the pass become Lean data types; each C++
  routine of the pass becomes an executable Lean function over them, mirroring
  the source structure.  LLVM-library services used by the pass (bitcode
  serialization, module linking, the listed-globals visitor) are not part of
  the repository source; they are modelled at the granularity the pass relies
  on: serialization captures the module value itself, linking merges by symbol
  name, and the listed-globals visitor reads an externally configured name
  list carried on the module.
-/

namespace drti

/-- Tail-call kind of a call instruction (llvm::CallInst::TailCallKind). -/
inductive TailKind where
  | tckNone
  | tckTail
  | tckMustTail
  | tckNoTail
deriving DecidableEq, Repr

/-- The called operand of a call instruction: either a function of the module
(llvm::Function, i.e. a direct call to a declaration or definition), some
other pointer-typed value (an indirect call), or - after decoration - the
loaded and casted resolved-target value produced by decorate_call. -/
inductive Callee where
  | direct (fname : String)
  | pointer (vid : Nat)
  | resolved
deriving DecidableEq, Repr

/-- Tag identifying which comparison feeds a conditional branch inserted by
add_landing_update; branches of the input program carry the plain tag. -/
inductive CondTag where
  | aligned
  | magic
  | plainCond
deriving DecidableEq, Repr

/-- Value fed into the drtiCallerTreenode phi by one of its predecessors. -/
inductive PhiIn where
  | nullTreenode
  | treenode
deriving DecidableEq, Repr

/-- Instructions, covering the input-program shapes the pass inspects
(allocas, calls, terminators, anything else) and the instructions inserted
by add_landing_update and decorate_call.  A call records its called operand,
the callee function type (the pointee type the source unwraps from the
callee pointer type), whether it is inline asm, its tail-call kind and
whether it is an invoke rather than a plain call. -/
inductive Instr where
  | alloca (id : Nat)
  | call (callee : Callee) (ctype : Nat) (inlineAsm : Bool)
      (tailKind : TailKind) (isInvoke : Bool)
  | other (id : Nat)
  | ret
  | br (dest : String)
  | condBr (tag : CondTag) (ifTrue ifFalse : String)
  | retAddress
  | ptrToInt
  | andAlign
  | icmpAligned
  | callerPhi (e1 e2 e3 : String × PhiIn)
  | intToPtr
  | gepMagic
  | loadMagic
  | icmpMagic
  | callCaller
  | callLanded (landing : String)
  | castOldTarget (orig : Callee)
  | callFrom (callsite : String) (ordinal : Nat) (orig : Callee)
  | gepResolved
  | loadResolved
  | castResolved
  | callSetCaller
deriving DecidableEq, Repr

/-- A basic block: a label and its instruction list. -/
structure BasicBlock where
  name : String
  instrs : List Instr
deriving DecidableEq, Repr

/-- An llvm::Function as the pass sees it: name, declaration flag, intrinsic
flag, its function type (by id), the optnone/noinline attributes that
collect_globals strips, and the body (empty for declarations). -/
structure Func where
  name : String
  isDecl : Bool
  isIntrinsic : Bool
  ftype : Nat
  optnone : Bool
  noinline : Bool
  body : List BasicBlock
deriving DecidableEq, Repr

/-- The drti::static_callsite constant built by create_callsite_global:
counter, pointer to the owning landing-site global, and the call ordinal
(the scratch vector member is zero-initialized and carries no data). -/
structure CallSiteRec where
  total_calls : Nat
  landing : String
  ordinal : Nat
deriving DecidableEq, Repr

/-- The drti::landing_site constant built by create_landing_global. -/
structure LandingRec where
  total_called : Nat
  global_name : String
  function_name : String
  self : String
deriving DecidableEq, Repr

/-- Initializer classification of a global variable: a plain input global or
one of the globals created by the pass. -/
inductive GlobalKind where
  | plain
  | bitcode
  | globalsTable
  | selfDesc
  | landingName (contents : String)
  | landingFnName (contents : String)
  | landing (rec : LandingRec)
  | callsite (rec : CallSiteRec)
deriving DecidableEq, Repr

/-- A global variable of the module. -/
structure GlobalVar where
  name : String
  kind : GlobalKind
deriving DecidableEq, Repr

/-- An llvm::Module as the pass sees it: target triple, functions, globals,
the named struct types present (getTypeByName), and the externally
configured listed-globals names consumed by visit_listed_globals
(drti-common.hpp, outside this repository's src). -/
structure Module where
  targetTriple : String
  functions : List Func
  globals : List GlobalVar
  namedTypes : List String
  listed : List String
deriving DecidableEq, Repr

/-- The reflect descriptor built by create_self: the embedded snapshot (the
module value serialized into __drti_bitcode; bitcode serialization is an
LLVM-library service, modelled as capturing the module value) and the
collected symbol table stored in __drti_globals. -/
structure Reflect where
  snapshot : Module
  symbols : List String
deriving DecidableEq, Repr

/-- The supported target triple checked at the top of Decorate::runOnModule. -/
def supportedTriple : String := "x86_64-unknown-linux-gnu"

/-- The triple installed on the module after successful decoration. -/
def decoratedTriple : String := "x86_64_drti-unknown-linux-gnu"

/-- split_stream: whitespace-separated tokens of a stream, as read by
repeated operator>> into std::string. -/
def splitWordsAux : List Char → List Char → List String
  | [], [] => []
  | [], acc => [String.mk acc.reverse]
  | c :: rest, acc =>
    if c.isWhitespace then
      (if acc.isEmpty then [] else [String.mk acc.reverse]) ++ splitWordsAux rest []
    else
      splitWordsAux rest (c :: acc)

/-- Tokens of one configuration source. -/
def splitWords (s : String) : List String := splitWordsAux s.data []

/-- Tokens contributed by an optional configuration source (none when the
environment variable is unset; for DRTI_TARGETS_FILE the option carries the
file contents, since file reading is I/O outside the pass). -/
def wordsOf : Option String → List String
  | some s => splitWords s
  | none => []

/-- The diagnostic message of targets_from_environment's fatal abort. -/
def noTargetsMessage : String :=
  "No target functions found. Have you set DRTI_TARGET_NAMES and/or DRTI_TARGETS_FILE?"

/-- DecoratePass::targets_from_environment: gather names from the
DRTI_TARGET_NAMES contents and the DRTI_TARGETS_FILE contents; an empty
combined result is a fatal error (llvm::report_fatal_error, modelled as
Except.error).  The C++ std::unordered_set deduplicates; the returned list
may carry duplicates but has the same membership and the same emptiness. -/
def targets_from_environment (envNames fileContents : Option String) :
    Except String (List String) :=
  if (wordsOf envNames ++ wordsOf fileContents).isEmpty then
    Except.error noTargetsMessage
  else Except.ok (wordsOf envNames ++ wordsOf fileContents)

/-- DecoratePass::find_target_functions: every function whose name is in the
target-name set is inserted into m_target_functions, and its function type
into m_target_function_types, regardless of declaration/definition status
(the isDeclaration test in the source only guards a debug print). -/
def find_target_functions (tns : List String) (m : Module) :
    List Func × List Nat :=
  let tfs := m.functions.filter (fun f => f.name ∈ tns)
  (tfs, tfs.map Func.ftype)

/-- Whether two function lists both define (not merely declare) a symbol of
the same name; llvm::Linker reports such duplicate-definition conflicts.
Modelled from the spec: SupportLinker link conflicts (the linker itself is
an LLVM-library service outside this repository's src). -/
def linkConflict (d s : Module) : Bool :=
  s.functions.any (fun f =>
    !f.isDecl && d.functions.any (fun g => g.name == f.name && !g.isDecl))

/-- Modelled from the spec: SupportLinker symbol merging - a declaration in
the destination is replaced by a same-named definition from the support
module. -/
def mergeFn (src : List Func) (f : Func) : Func :=
  if f.isDecl then
    match src.find? (fun g => g.name == f.name && !g.isDecl) with
    | some g => g
    | none => f
  else f

/-- Modelled from the spec: SupportLinker (llvm::Linker::linkInModule is an
LLVM-library service outside this repository's src): merge the support
module's definitions into the destination by symbol name, without
duplicating; none on a link conflict. -/
def linkInModule (d s : Module) : Option Module :=
  if linkConflict d s then none
  else
    some
      { targetTriple := d.targetTriple
        functions :=
          d.functions.map (mergeFn s.functions) ++
            s.functions.filter
              (fun g => !(d.functions.any (fun f => f.name == g.name)))
        globals :=
          d.globals ++
            s.globals.filter
              (fun g => !(d.globals.any (fun h => h.name == g.name)))
        namedTypes :=
          d.namedTypes ++ s.namedTypes.filter (fun t => !(d.namedTypes.contains t))
        listed := d.listed }

/-- Module::getFunction. -/
def getFunction (m : Module) (nm : String) : Option Func :=
  m.functions.find? (fun f => f.name == nm)

/-- InlineHelpers::ok: all four struct types and both hand-off routines must
be present in the module after linking. -/
def helpers_ok (m : Module) : Bool :=
  m.namedTypes.contains "struct.drti::landing_site" &&
  m.namedTypes.contains "struct.drti::static_callsite" &&
  m.namedTypes.contains "struct.drti::treenode" &&
  m.namedTypes.contains "struct.drti::reflect" &&
  (getFunction m "_drti_landed").isSome &&
  (getFunction m "_drti_call_from").isSome

/-- Attribute stripping performed by collect_globals on every non-intrinsic
function definition: remove OptimizeNone and NoInline. -/
def stripFn (f : Func) : Func :=
  if !f.isIntrinsic && !f.isDecl then
    { f with optnone := false, noinline := false }
  else f

/-- The module after collect_globals' attribute stripping. -/
def stripModule (m : Module) : Module :=
  { m with functions := m.functions.map stripFn }

/-- The symbol list gathered by collect_globals: the listed globals first
(visit_listed_globals), then every non-intrinsic external function
declaration, in module iteration order. -/
def collected_symbols (m : Module) : List String :=
  m.listed ++
    (m.functions.filter (fun f => !f.isIntrinsic && f.isDecl)).map Func.name

/-- DecoratePass::create_self: run collect_globals (collecting the symbol
table and stripping optnone/noinline), serialize the module in that state
(raw_bitcode - before the new globals below are added and before any
decoration), then append the __drti_bitcode, __drti_globals and __drti_self
globals.  Returns the module together with the reflect descriptor. -/
def create_self (m : Module) : Module × Reflect :=
  let syms := collected_symbols m
  let m1 := stripModule m
  let m2 :=
    { m1 with
        globals :=
          m1.globals ++
            [⟨"__drti_bitcode", GlobalKind.bitcode⟩,
             ⟨"__drti_globals", GlobalKind.globalsTable⟩,
             ⟨"__drti_self", GlobalKind.selfDesc⟩] }
  (m2, ⟨m1, syms⟩)

/-- Whether an instruction is a non-inline-asm call (llvm::CallBase that is
not inline asm): exactly these receive a call_number in collect_calls. -/
def isRealCall : Instr → Bool
  | Instr.call _ _ inlineAsm _ _ => !inlineAsm
  | _ => false

/-- Whether an instruction is an alloca. -/
def Instr.isAlloca : Instr → Bool
  | Instr.alloca _ => true
  | _ => false

/-- The pre-decoration enumeration of a function's call instructions:
encounter order over basic blocks and instructions, restricted to
non-inline-asm calls.  Position in this list is the call_number assigned by
collect_calls. -/
def callEnum (f : Func) : List Instr :=
  ((f.body.map BasicBlock.instrs).flatten).filter isRealCall

/-- Body of DecoratePass::collect_calls: walk the instructions, incrementing
call_number for every non-inline-asm call; a call is collected when its
callee type is one of the target function types and it is not a direct call
to a known non-target function. -/
def collectGo (tns : List String) (tts : List Nat) :
    Nat → List Instr → List (Nat × Instr)
  | _, [] => []
  | n, i :: rest =>
    match i with
    | Instr.call callee ctype inlineAsm tailKind isInvoke =>
      if inlineAsm then collectGo tns tts n rest
      else if ctype ∈ tts then
        (match callee with
         | Callee.direct g =>
           if g ∈ tns then
             [(n, Instr.call callee ctype inlineAsm tailKind isInvoke)]
           else []
         | _ => [(n, Instr.call callee ctype inlineAsm tailKind isInvoke)]) ++
          collectGo tns tts (n + 1) rest
      else collectGo tns tts (n + 1) rest
    | _ => collectGo tns tts n rest

/-- DecoratePass::collect_calls over a whole function. -/
def collect_calls (tns : List String) (tts : List Nat) (f : Func) :
    List (Nat × Instr) :=
  collectGo tns tts 0 ((f.body.map BasicBlock.instrs).flatten)

/-- The per-claim-C4 selection condition, as one boolean: the call is not
inline asm, its callee type is a target type, and if the callee is a known
function it is one of the targets. -/
def selectedB (tns : List String) (tts : List Nat) : Instr → Bool
  | Instr.call callee ctype inlineAsm _ _ =>
    !inlineAsm && decide (ctype ∈ tts) &&
      (match callee with
       | Callee.direct g => decide (g ∈ tns)
       | _ => true)
  | _ => false

/-- Follows the spec's words for claim C4 (not the source): a call is
decoration-worthy when its callee's static type matches a TargetSignature
and the callee is not a known, non-target, *external declaration*.  The
module parameter resolves direct callees to their declaration status. -/
def specSelected (tns : List String) (tts : List Nat) (m : Module) :
    Instr → Bool
  | Instr.call callee ctype inlineAsm _ _ =>
    !inlineAsm && decide (ctype ∈ tts) &&
      !(match callee with
        | Callee.direct g =>
          match getFunction m g with
          | some gf => gf.isDecl && decide (g ∉ tns)
          | none => false
        | _ => false)
  | _ => false

/-- Split the leading alloca run of an entry block from the rest; the split
point chosen by add_landing_update is the first non-alloca instruction. -/
def splitAllocas : List Instr → List Instr × List Instr
  | [] => ([], [])
  | i :: rest =>
    if i.isAlloca then ((i :: (splitAllocas rest).1), (splitAllocas rest).2)
    else ([], i :: rest)

/-- The landing state-machine construction, split out of add_landing_update
so the execution lemmas can speak about the built body. -/
def landingBody (entryName landingName : String) (pre post : List Instr)
    (rest : List BasicBlock) : List BasicBlock :=
  -- entry keeps the allocas and gains the return-address test; drti_land1
  -- is inserted right after the entry block and carries the phi plus the
  -- original entry tail; drti_land2 and drti_land3 are appended at the end
  -- of the function, matching the insertion points in the source.
  ⟨entryName,
    pre ++
      [Instr.retAddress, Instr.ptrToInt, Instr.andAlign, Instr.icmpAligned,
       Instr.condBr CondTag.aligned "drti_land2" "drti_land1"]⟩ ::
  ⟨"drti_land1",
    Instr.callerPhi (entryName, PhiIn.nullTreenode)
        ("drti_land2", PhiIn.nullTreenode)
        ("drti_land3", PhiIn.treenode) :: post⟩ ::
  (rest ++
    [⟨"drti_land2",
       [Instr.intToPtr, Instr.gepMagic, Instr.loadMagic, Instr.icmpMagic,
        Instr.condBr CondTag.magic "drti_land3" "drti_land1"]⟩,
     ⟨"drti_land3",
       [Instr.callCaller, Instr.callLanded landingName,
        Instr.br "drti_land1"]⟩])

/-- DecoratePass::add_landing_update: split the entry block after its
allocas and install the four-block landing state machine.  A missing split
point (an entry block with no non-alloca instruction, hence no terminator)
is the source's report_fatal_error; a body-less definition is likewise
malformed. -/
def add_landing_update (landingName : String) (f : Func) :
    Except String Func :=
  match f.body with
  | [] =>
    Except.error ("drti-decorate: Malformed entry block in function " ++ f.name)
  | entry :: rest =>
    match (splitAllocas entry.instrs).2 with
    | [] =>
      Except.error
        ("drti-decorate: Malformed entry block in function " ++ f.name)
    | _ =>
      Except.ok
        { f with
            body :=
              landingBody entry.name landingName (splitAllocas entry.instrs).1
                (splitAllocas entry.instrs).2 rest }

/-- The call after decorate_call's setCalledOperand and setTailCallKind: the
called operand becomes the casted resolved_target load, and a plain call
(not an invoke) is forced to TCK_NoTail. -/
def rewriteCall : Instr → Instr
  | Instr.call _ ctype inlineAsm tailKind isInvoke =>
    Instr.call Callee.resolved ctype inlineAsm
      (if isInvoke then tailKind else TailKind.tckNoTail) isInvoke
  | i => i

/-- DecoratePass::decorate_call: the instructions inserted immediately
before the original call - bitcast of the old target, the _drti_call_from
invocation (callsite global, the caller phi from add_landing_update, the
casted old target), the resolved_target struct GEP, its load, the bitcast
back to the call's original signature, and the _drti_set_caller marker -
followed by the rewritten call itself. -/
def decoratedSeq (cs : String) (n : Nat) (i : Instr) : List Instr :=
  match i with
  | Instr.call callee ctype inlineAsm tailKind isInvoke =>
    [Instr.castOldTarget callee, Instr.callFrom cs n callee,
     Instr.gepResolved, Instr.loadResolved, Instr.castResolved,
     Instr.callSetCaller,
     rewriteCall (Instr.call callee ctype inlineAsm tailKind isInvoke)]
  | i => [i]

/-- Rewrite the instruction list of one block: real calls are counted with
the same numbering as collect_calls, and the calls whose ordinal was
collected are replaced by their decorated sequence.  Returns the rewritten
list and the running call counter. -/
def decorateInstrs (cs : String) (sel : List Nat) :
    Nat → List Instr → List Instr × Nat
  | n, [] => ([], n)
  | n, i :: rest =>
    if isRealCall i then
      let t := decorateInstrs cs sel (n + 1) rest
      ((if n ∈ sel then decoratedSeq cs n i else [i]) ++ t.1, t.2)
    else
      let t := decorateInstrs cs sel n rest
      (i :: t.1, t.2)

/-- Rewrite all blocks, threading the call counter in block order. -/
def decorateBlocks (cs : String) (sel : List Nat) :
    Nat → List BasicBlock → List BasicBlock
  | _, [] => []
  | n, b :: rest =>
    let t := decorateInstrs cs sel n b.instrs
    ⟨b.name, t.1⟩ :: decorateBlocks cs sel t.2 rest

/-- DecoratePass::decorate_calls on a function body.  The source mutates the
stored CallBase pointers; since add_landing_update neither adds, removes
nor reorders any non-inline-asm call of the original body, selecting the
collected ordinals under the same numbering reaches exactly the same call
instructions. -/
def decorateBody (cs : String) (sel : List Nat) (body : List BasicBlock) :
    List BasicBlock :=
  decorateBlocks cs sel 0 body

/-- DecoratePass::create_callsite_global: the static_callsite constant for
one collected call - zero counter, the owning landing global, the call
ordinal (and a zero-initialized scratch vector). -/
def create_callsite_global (fname landingName : String) (n : Nat) :
    GlobalVar :=
  ⟨"_drti_callsite_" ++ fname, GlobalKind.callsite ⟨0, landingName, n⟩⟩

/-- DecoratePass::create_landing_global: the landing-site constant and its
two name-string globals, in final module order (the landing variable is
inserted before the function-name global, which is inserted before the
site-name global). -/
def create_landing_global (fname : String) : List GlobalVar :=
  [⟨"_drti_landing_" ++ fname,
     GlobalKind.landing ⟨0, "_drti_landing_" ++ fname, fname, "__drti_self"⟩⟩,
   ⟨"__drti_landing_site_function_name", GlobalKind.landingFnName fname⟩,
   ⟨"__drti_landing_site_name", GlobalKind.landingName ("_drti_landing_" ++ fname)⟩]

/-- Decoration of one target function definition (the body of the
add_landing_globals loop): collect the calls first (before any mutation),
then create the landing global, install the landing state machine, and
decorate the collected calls, creating one callsite global per collected
call in collection order. -/
def decorate_function (tns : List String) (tts : List Nat) (f : Func) :
    Except String (Func × List GlobalVar) :=
  -- the calls are collected from the original f (before any mutation); both
  -- the decorated body and the callsite globals are driven by that list
  match add_landing_update ("_drti_landing_" ++ f.name) f with
  | Except.error e => Except.error e
  | Except.ok f1 =>
    Except.ok
      ({ f1 with
           body :=
             decorateBody ("_drti_callsite_" ++ f.name)
               ((collect_calls tns tts f).map Prod.fst) f1.body },
        create_landing_global f.name ++
          (collect_calls tns tts f).map
            (fun p =>
              create_callsite_global f.name ("_drti_landing_" ++ f.name) p.1))

/-- The add_landing_globals loop over the module's functions: every target
function that is a definition is decorated; declarations and non-targets
pass through. -/
def decorate_all (tns : List String) (tts : List Nat) :
    List Func → Except String (List Func × List GlobalVar)
  | [] => Except.ok ([], [])
  | f :: rest =>
    if f.name ∈ tns ∧ ¬f.isDecl then
      match decorate_function tns tts f with
      | Except.error e => Except.error e
      | Except.ok (f2, gs) =>
        match decorate_all tns tts rest with
        | Except.error e => Except.error e
        | Except.ok (fns, gs2) => Except.ok (f2 :: fns, gs ++ gs2)
    else
      match decorate_all tns tts rest with
      | Except.error e => Except.error e
      | Except.ok (fns, gs2) => Except.ok (f :: fns, gs2)

/-- DecoratePass::add_landing_globals at module level. -/
def add_landing_globals (tns : List String) (tts : List Nat) (m : Module) :
    Except String Module :=
  match decorate_all tns tts m.functions with
  | Except.error e => Except.error e
  | Except.ok (fns, gs) =>
    Except.ok { m with functions := fns, globals := m.globals ++ gs }

/-- Decorate::runOnModule: the triple gate, DecoratePass construction
(reading the target configuration - a fatal abort when empty), target
discovery, support linking, helper validation, snapshot embedding,
decoration, and the final triple rewrite.  Returns the changed flag, the
resulting module, and the reflect descriptor when one was embedded. -/
def runOnModule (support : Module) (envNames fileContents : Option String)
    (m : Module) : Except String (Bool × Module × Option Reflect) :=
  if m.targetTriple ≠ supportedTriple then Except.ok (false, m, none)
  else
    match targets_from_environment envNames fileContents with
    | Except.error e => Except.error e
    | Except.ok tns =>
      if (find_target_functions tns m).1.isEmpty then Except.ok (false, m, none)
      else
        match linkInModule m support with
        | none => Except.ok (false, m, none)
        | some lm =>
          if !helpers_ok lm then Except.ok (true, lm, none)
          else
            match
              add_landing_globals ((find_target_functions tns m).1.map Func.name)
                (find_target_functions tns m).2 (create_self lm).1
            with
            | Except.error e => Except.error e
            | Except.ok m2 =>
              Except.ok
                (true, { m2 with targetTriple := decoratedTriple },
                  some (create_self lm).2)

/-- Outcome of executing the landing state machine up to the merge point:
whether _drti_landed was invoked, and the value the drtiCallerTreenode phi
selects (none when execution ends without reaching the phi). -/
structure LandingResult where
  landed : Bool
  phiVal : Option PhiIn
deriving DecidableEq, Repr

/-- Evaluate the condition of a tagged conditional branch, given the
outcomes of the return-address alignment test and the magic probe. -/
def evalCond (aligned magic : Bool) : CondTag → Option Bool
  | CondTag.aligned => some aligned
  | CondTag.magic => some magic
  | CondTag.plainCond => none

/-- Look up a basic block by name. -/
def findBlock (body : List BasicBlock) (nm : String) : Option BasicBlock :=
  body.find? (fun b => b.name == nm)

/-- One step of block execution: finish at a phi or a return, jump at a
branch, get stuck on anything the landing semantics does not cover. -/
inductive StepResult where
  | done (r : LandingResult)
  | jump (dest : String) (landed : Bool)
  | stuck
deriving DecidableEq, Repr

/-- Execute the instructions of one block under the landing semantics:
straight-line instructions are skipped, the _drti_landed call is recorded,
the phi returns the value contributed by the predecessor block, branches
jump. -/
def runBlock (aligned magic : Bool) (prev : String) :
    List Instr → Bool → StepResult
  | [], _ => StepResult.stuck
  | i :: rest, landed =>
    match i with
    | Instr.callerPhi e1 e2 e3 =>
      StepResult.done
        ⟨landed,
          if prev == e1.1 then some e1.2
          else if prev == e2.1 then some e2.2
          else if prev == e3.1 then some e3.2
          else none⟩
    | Instr.callLanded _ => runBlock aligned magic prev rest true
    | Instr.condBr tag t f =>
      match evalCond aligned magic tag with
      | some b => StepResult.jump (if b then t else f) landed
      | none => StepResult.stuck
    | Instr.br d => StepResult.jump d landed
    | Instr.ret => StepResult.done ⟨landed, none⟩
    | _ => runBlock aligned magic prev rest landed

/-- Fuelled execution of the landing state machine from a named block,
remembering the predecessor for the phi. -/
def runLanding (body : List BasicBlock) (aligned magic : Bool) :
    Nat → String → String → Bool → Option LandingResult
  | 0, _, _, _ => none
  | Nat.succ fuel, prev, cur, landed =>
    match findBlock body cur with
    | none => none
    | some blk =>
      match runBlock aligned magic prev blk.instrs landed with
      | StepResult.done r => some r
      | StepResult.jump d landed2 => runLanding body aligned magic fuel cur d landed2
      | StepResult.stuck => none

/-- Whether an instruction could have been produced only by decoration:
everything add_landing_update or decorate_call inserts, the two tagged
conditional branches, and calls through the resolved-target value. -/
def Instr.isPlain : Instr → Bool
  | Instr.alloca _ => true
  | Instr.other _ => true
  | Instr.ret => true
  | Instr.br _ => true
  | Instr.condBr tag _ _ => tag == CondTag.plainCond
  | Instr.call callee _ _ _ _ =>
    match callee with
    | Callee.resolved => false
    | _ => true
  | _ => false

/-- A module free of decoration artifacts: every global is a plain input
global and every instruction is a plain input instruction. -/
def Module.plainB (m : Module) : Bool :=
  m.globals.all (fun g => g.kind == GlobalKind.plain) &&
    m.functions.all (fun f =>
      f.body.all (fun b => b.instrs.all Instr.isPlain))

/-- Concrete target function: one alloca, one indirect call through a
pointer of the target's own function type, then a return. -/
def exHot : Func :=
  ⟨"hot", false, false, 0, true, true,
    [⟨"entry",
       [Instr.alloca 0,
        Instr.call (Callee.pointer 7) 0 false TailKind.tckNone false,
        Instr.ret]⟩]⟩

/-- Concrete input module containing exHot and one plain global. -/
def exModule : Module :=
  ⟨supportedTriple, [exHot], [⟨"gv", GlobalKind.plain⟩], [], []⟩

/-- Concrete support module: the two hand-off routines and the four struct
types the pass validates. -/
def exSupport : Module :=
  ⟨supportedTriple,
    [⟨"_drti_landed", false, false, 100, false, false, [⟨"sb1", [Instr.ret]⟩]⟩,
     ⟨"_drti_call_from", false, false, 101, false, false,
       [⟨"sb2", [Instr.ret]⟩]⟩],
    [],
    ["struct.drti::landing_site", "struct.drti::static_callsite",
     "struct.drti::treenode", "struct.drti::reflect"],
    []⟩

/-- A support module missing everything, so helper validation fails. -/
def exEmptySupport : Module := ⟨supportedTriple, [], [], [], []⟩

/-- The link of exModule with exSupport. -/
def exLinked : Module := (linkInModule exModule exSupport).getD exModule

/-- The link of exModule with the empty support module. -/
def exLinkedEmpty : Module := (linkInModule exModule exEmptySupport).getD exModule

/-- The reflect descriptor the pipeline embeds for exModule. -/
def exReflect : Reflect :=
  match runOnModule exSupport (some "hot") none exModule with
  | Except.ok (_, _, some r) => r
  | _ => ⟨exModule, []⟩

/-- The final module the pipeline produces for exModule. -/
def exFinal : Module :=
  match runOnModule exSupport (some "hot") none exModule with
  | Except.ok (_, m2, _) => m2
  | _ => exModule

/-- The decorated version of exHot. -/
def exDecoratedFn : Func :=
  match decorate_function ["hot"] [0] exHot with
  | Except.ok p => p.1
  | _ => exHot

/-- The globals created while decorating exHot. -/
def exDecoratedGs : List GlobalVar :=
  match decorate_function ["hot"] [0] exHot with
  | Except.ok p => p.2
  | _ => []

/-- exHot after add_landing_update alone. -/
def exLanded : Func :=
  match add_landing_update "_drti_landing_hot" exHot with
  | Except.ok f => f
  | _ => exHot

/-- A module whose only target-named function is a bare declaration. -/
def exDeclFunc : Func := ⟨"t", true, false, 0, false, false, []⟩

/-- Module used by the C3 counterexample. -/
def exDeclModule : Module := ⟨supportedTriple, [exDeclFunc], [], [], []⟩

/-- A non-target function definition sharing the target's function type. -/
def gFun : Func := ⟨"g", false, false, 0, false, false, [⟨"gentry", [Instr.ret]⟩]⟩

/-- A target definition that calls gFun directly. -/
def tFun : Func :=
  ⟨"t", false, false, 0, false, false,
    [⟨"entry",
       [Instr.call (Callee.direct "g") 0 false TailKind.tckNone false,
        Instr.ret]⟩]⟩

/-- Module used by the C4 counterexample. -/
def exC4Module : Module := ⟨supportedTriple, [tFun, gFun], [], [], []⟩

/-- A module with a non-supported target triple. -/
def exOtherTriple : Module :=
  ⟨"aarch64-unknown-linux-gnu", [exHot], [⟨"gv", GlobalKind.plain⟩], [], []⟩

theorem splitAllocas_fst_alloca :
    ∀ (l : List Instr), ∀ i ∈ (splitAllocas l).1, Instr.isAlloca i = true := by
  intro l
  induction l with
  | nil => intro i h; simp [splitAllocas] at h
  | cons j rest ih =>
    intro i h
    by_cases hj : j.isAlloca
    · rw [splitAllocas, if_pos hj] at h
      rcases List.mem_cons.mp h with h | h
      · rw [h]; exact hj
      · exact ih i h
    · rw [splitAllocas, if_neg hj] at h
      simp at h

theorem collectGo_cons_nonreal (tns : List String) (tts : List Nat)
    (i : Instr) (rest : List Instr) (n0 : Nat)
    (hi : isRealCall i = false) :
    collectGo tns tts n0 (i :: rest) = collectGo tns tts n0 rest := by
  cases i
  case call callee ctype inlineAsm tailKind isInvoke =>
    cases inlineAsm with
    | true => rfl
    | false => simp [isRealCall] at hi
  all_goals rfl

theorem collectGo_cons_real_sel (tns : List String) (tts : List Nat)
    (i : Instr) (rest : List Instr) (n0 : Nat)
    (hi : isRealCall i = true) (hsel : selectedB tns tts i = true) :
    collectGo tns tts n0 (i :: rest) =
      (n0, i) :: collectGo tns tts (n0 + 1) rest := by
  cases i
  case call callee ctype inlineAsm tailKind isInvoke =>
    cases inlineAsm with
    | true => simp [isRealCall] at hi
    | false =>
      cases callee with
      | direct g =>
        simp [selectedB] at hsel
        simp only [collectGo]
        simp [hsel.1, hsel.2]
      | pointer vid =>
        simp [selectedB] at hsel
        simp only [collectGo]
        simp [hsel]
      | resolved =>
        simp [selectedB] at hsel
        simp only [collectGo]
        simp [hsel]
  all_goals simp [isRealCall] at hi

theorem collectGo_cons_real_nosel (tns : List String) (tts : List Nat)
    (i : Instr) (rest : List Instr) (n0 : Nat)
    (hi : isRealCall i = true) (hsel : selectedB tns tts i = false) :
    collectGo tns tts n0 (i :: rest) = collectGo tns tts (n0 + 1) rest := by
  cases i
  case call callee ctype inlineAsm tailKind isInvoke =>
    cases inlineAsm with
    | true => simp [isRealCall] at hi
    | false =>
      cases callee with
      | direct g =>
        simp [selectedB] at hsel
        by_cases hct : ctype ∈ tts
        · have hg : g ∉ tns := hsel hct
          simp only [collectGo]
          simp [hct, hg]
        · simp only [collectGo]
          simp [hct]
      | pointer vid =>
        simp [selectedB] at hsel
        simp only [collectGo]
        simp [hsel]
      | resolved =>
        simp [selectedB] at hsel
        simp only [collectGo]
        simp [hsel]
  all_goals simp [isRealCall] at hi

theorem selected_mem_shift (tns : List String) (tts : List Nat)
    (i : Instr) (fil : List Instr) (tail : List (Nat × Instr)) (n0 : Nat)
    (q : Nat × Instr) (hsel : selectedB tns tts i = false)
    (htail : q ∈ tail ↔
      ∃ k, q.1 = n0 + 1 + k ∧ fil.get? k = some q.2 ∧
        selectedB tns tts q.2 = true) :
    q ∈ tail ↔
      ∃ k, q.1 = n0 + k ∧ (i :: fil).get? k = some q.2 ∧
        selectedB tns tts q.2 = true := by
  constructor
  · intro h
    rcases htail.mp h with ⟨k, hk1, hk2, hk3⟩
    exact ⟨k + 1, by omega, by simpa using hk2, hk3⟩
  · rintro ⟨k, hk1, hk2, hk3⟩
    cases k with
    | zero =>
      simp at hk2
      rw [← hk2] at hk3
      rw [hsel] at hk3
      exact Bool.noConfusion hk3
    | succ k =>
      exact htail.mpr ⟨k, by omega, by simpa using hk2, hk3⟩

theorem selected_mem_cons (tns : List String) (tts : List Nat)
    (i : Instr) (fil : List Instr) (tail : List (Nat × Instr)) (n0 : Nat)
    (q : Nat × Instr) (hsel : selectedB tns tts i = true)
    (htail : q ∈ tail ↔
      ∃ k, q.1 = n0 + 1 + k ∧ fil.get? k = some q.2 ∧
        selectedB tns tts q.2 = true) :
    q ∈ (n0, i) :: tail ↔
      ∃ k, q.1 = n0 + k ∧ (i :: fil).get? k = some q.2 ∧
        selectedB tns tts q.2 = true := by
  constructor
  · intro h
    rcases List.mem_cons.mp h with h | h
    · subst h
      exact ⟨0, by simp, by simp, hsel⟩
    · rcases htail.mp h with ⟨k, hk1, hk2, hk3⟩
      exact ⟨k + 1, by omega, by simpa using hk2, hk3⟩
  · rintro ⟨k, hk1, hk2, hk3⟩
    cases k with
    | zero =>
      have hq : q = (n0, i) := by
        apply Prod.ext
        · simpa using hk1
        · simp at hk2
          exact hk2.symm
      exact List.mem_cons.mpr (Or.inl hq)
    | succ k =>
      exact List.mem_cons.mpr
        (Or.inr (htail.mpr ⟨k, by omega, by simpa using hk2, hk3⟩))

theorem collectGo_mem_iff (tns : List String) (tts : List Nat) :
    ∀ (l : List Instr) (n0 : Nat) (q : Nat × Instr),
      q ∈ collectGo tns tts n0 l ↔
        ∃ k, q.1 = n0 + k ∧ (l.filter isRealCall).get? k = some q.2 ∧
          selectedB tns tts q.2 = true := by
  intro l
  induction l with
  | nil => intro n0 q; simp [collectGo]
  | cons i rest ih =>
    intro n0 q
    cases hreal : isRealCall i with
    | false =>
      rw [collectGo_cons_nonreal tns tts i rest n0 hreal,
        List.filter_cons_of_neg (by simp [hreal])]
      exact ih n0 q
    | true =>
      rw [List.filter_cons_of_pos (by simp [hreal])]
      cases hsel : selectedB tns tts i with
      | false =>
        rw [collectGo_cons_real_nosel tns tts i rest n0 hreal hsel]
        exact selected_mem_shift tns tts i (rest.filter isRealCall) _ n0 q hsel
          (ih (n0 + 1) q)
      | true =>
        rw [collectGo_cons_real_sel tns tts i rest n0 hreal hsel]
        exact selected_mem_cons tns tts i (rest.filter isRealCall) _ n0 q hsel
          (ih (n0 + 1) q)

theorem collect_calls_mem_iff (tns : List String) (tts : List Nat)
    (f : Func) (q : Nat × Instr) :
    q ∈ collect_calls tns tts f ↔
      (callEnum f).get? q.1 = some q.2 ∧ selectedB tns tts q.2 = true := by
  rw [collect_calls, collectGo_mem_iff]
  constructor
  · rintro ⟨k, hk1, hk2, hk3⟩
    rw [callEnum, hk1]
    exact ⟨by simpa using hk2, hk3⟩
  · rintro ⟨h1, h2⟩
    exact ⟨q.1, by omega, by simpa [callEnum] using h1, h2⟩

theorem runBlock_append_allocas (a m : Bool) (prev : String) :
    ∀ (pre post : List Instr) (landed : Bool),
      (∀ i ∈ pre, Instr.isAlloca i = true) →
      runBlock a m prev (pre ++ post) landed = runBlock a m prev post landed := by
  intro pre
  induction pre with
  | nil => intro post landed _; rfl
  | cons j pre ih =>
    intro post landed h
    have hj := h j (List.mem_cons_self _ _)
    cases j
    case alloca id =>
      rw [List.cons_append]
      show runBlock a m prev (pre ++ post) landed = _
      exact ih post landed (fun i hi => h i (List.mem_cons_of_mem _ hi))
    all_goals simp [Instr.isAlloca] at hj

theorem findBlock_append_skip :
    ∀ (l l2 : List BasicBlock) (nm : String),
      (∀ b ∈ l, b.name ≠ nm) →
      findBlock (l ++ l2) nm = findBlock l2 nm := by
  intro l
  induction l with
  | nil => intro l2 nm _; rfl
  | cons b l ih =>
    intro l2 nm h
    have hb : (b.name == nm) = false :=
      beq_eq_false_iff_ne.mpr (h b (List.mem_cons_self _ _))
    have step : findBlock ((b :: l) ++ l2) nm = findBlock (l ++ l2) nm := by
      simp [findBlock, hb]
    rw [step]
    exact ih l2 nm (fun x hx => h x (List.mem_cons_of_mem _ hx))

theorem runLanding_landingBody (entryName ln : String)
    (pre post : List Instr) (rest : List BasicBlock) (a m : Bool)
    (hpre : ∀ i ∈ pre, Instr.isAlloca i = true)
    (h1 : entryName ≠ "drti_land1") (h2 : entryName ≠ "drti_land2")
    (h3 : entryName ≠ "drti_land3")
    (hrest : ∀ b ∈ rest, b.name ≠ "drti_land2" ∧ b.name ≠ "drti_land3") :
    runLanding (landingBody entryName ln pre post rest) a m 5 "" entryName false =
      some ⟨a && m, some (if a && m then PhiIn.treenode else PhiIn.nullTreenode)⟩ := by
  have e1 : (entryName == "drti_land1") = false := beq_eq_false_iff_ne.mpr h1
  have e2 : (entryName == "drti_land2") = false := beq_eq_false_iff_ne.mpr h2
  have e3 : (entryName == "drti_land3") = false := beq_eq_false_iff_ne.mpr h3
  have e3' : ("drti_land3" == entryName) = false :=
    beq_eq_false_iff_ne.mpr (Ne.symm h3)
  have e2' : ("drti_land2" == entryName) = false :=
    beq_eq_false_iff_ne.mpr (Ne.symm h2)
  have hskip2 :
      findBlock (landingBody entryName ln pre post rest) "drti_land2" =
        some ⟨"drti_land2",
          [Instr.intToPtr, Instr.gepMagic, Instr.loadMagic, Instr.icmpMagic,
           Instr.condBr CondTag.magic "drti_land3" "drti_land1"]⟩ := by
    rw [landingBody, findBlock, List.find?_cons_of_neg _ (by simp [e2]),
      List.find?_cons_of_neg _ (by simp)]
    rw [show (List.find? (fun b => b.name == "drti_land2") (rest ++ _) : Option BasicBlock) =
        findBlock (rest ++ _) "drti_land2" from rfl]
    rw [findBlock_append_skip rest _ "drti_land2" (fun b hb => (hrest b hb).1)]
    rfl
  have hskip3 :
      findBlock (landingBody entryName ln pre post rest) "drti_land3" =
        some ⟨"drti_land3",
          [Instr.callCaller, Instr.callLanded ln, Instr.br "drti_land1"]⟩ := by
    rw [landingBody, findBlock, List.find?_cons_of_neg _ (by simp [e3]),
      List.find?_cons_of_neg _ (by simp)]
    rw [show (List.find? (fun b => b.name == "drti_land3") (rest ++ _) : Option BasicBlock) =
        findBlock (rest ++ _) "drti_land3" from rfl]
    rw [findBlock_append_skip rest _ "drti_land3" (fun b hb => (hrest b hb).2)]
    rfl
  have hland1 :
      findBlock (landingBody entryName ln pre post rest) "drti_land1" =
        some ⟨"drti_land1",
          Instr.callerPhi (entryName, PhiIn.nullTreenode)
              ("drti_land2", PhiIn.nullTreenode)
              ("drti_land3", PhiIn.treenode) :: post⟩ := by
    rw [landingBody, findBlock, List.find?_cons_of_neg _ (by simp [e1]),
      List.find?_cons_of_pos _ (by simp)]
  have hentry :
      findBlock (landingBody entryName ln pre post rest) entryName =
        some ⟨entryName,
          pre ++
            [Instr.retAddress, Instr.ptrToInt, Instr.andAlign,
             Instr.icmpAligned,
             Instr.condBr CondTag.aligned "drti_land2" "drti_land1"]⟩ := by
    rw [landingBody, findBlock, List.find?_cons_of_pos _ (by simp)]
  have hblock :
      runBlock a m "" (pre ++
        [Instr.retAddress, Instr.ptrToInt, Instr.andAlign, Instr.icmpAligned,
         Instr.condBr CondTag.aligned "drti_land2" "drti_land1"]) false =
        StepResult.jump (if a then "drti_land2" else "drti_land1") false := by
    rw [runBlock_append_allocas a m "" pre _ false hpre]
    rfl
  have hphi : ∀ (prev : String) (landed : Bool),
      runBlock a m prev
        (Instr.callerPhi (entryName, PhiIn.nullTreenode)
            ("drti_land2", PhiIn.nullTreenode)
            ("drti_land3", PhiIn.treenode) :: post) landed =
        StepResult.done ⟨landed,
          if prev == entryName then some PhiIn.nullTreenode
          else if prev == "drti_land2" then some PhiIn.nullTreenode
          else if prev == "drti_land3" then some PhiIn.treenode
          else none⟩ := by
    intro prev landed
    rfl
  have hland2run :
      runBlock a m entryName
        [Instr.intToPtr, Instr.gepMagic, Instr.loadMagic, Instr.icmpMagic,
         Instr.condBr CondTag.magic "drti_land3" "drti_land1"] false =
        StepResult.jump (if m then "drti_land3" else "drti_land1") false := rfl
  have hland3run :
      runBlock a m "drti_land2"
        [Instr.callCaller, Instr.callLanded ln, Instr.br "drti_land1"] false =
        StepResult.jump "drti_land1" true := rfl
  rw [show (5 : Nat) = Nat.succ 4 from rfl, runLanding, hentry]
  simp only
  rw [hblock]
  cases a with
  | false =>
    show runLanding (landingBody entryName ln pre post rest) false m 4
        entryName "drti_land1" false = some ⟨false, some PhiIn.nullTreenode⟩
    rw [show (4 : Nat) = Nat.succ 3 from rfl, runLanding, hland1]
    simp only
    rw [hphi entryName false]
    simp
  | true =>
    show runLanding (landingBody entryName ln pre post rest) true m 4
        entryName "drti_land2" false =
      some ⟨m, some (if m = true then PhiIn.treenode else PhiIn.nullTreenode)⟩
    rw [show (4 : Nat) = Nat.succ 3 from rfl, runLanding, hskip2]
    simp only
    rw [hland2run]
    cases m with
    | false =>
      show runLanding (landingBody entryName ln pre post rest) true false 3
          "drti_land2" "drti_land1" false = some ⟨false, some PhiIn.nullTreenode⟩
      rw [show (3 : Nat) = Nat.succ 2 from rfl, runLanding, hland1]
      simp only
      rw [hphi "drti_land2" false]
      simp [e2']
    | true =>
      show runLanding (landingBody entryName ln pre post rest) true true 3
          "drti_land2" "drti_land3" false = some ⟨true, some PhiIn.treenode⟩
      rw [show (3 : Nat) = Nat.succ 2 from rfl, runLanding, hskip3]
      simp only
      rw [hland3run]
      show runLanding (landingBody entryName ln pre post rest) true true 2
          "drti_land3" "drti_land1" true = some ⟨true, some PhiIn.treenode⟩
      rw [show (2 : Nat) = Nat.succ 1 from rfl, runLanding, hland1]
      simp only
      rw [hphi "drti_land3" true]
      simp [e3']

theorem stripFn_body (f : Func) : (stripFn f).body = f.body := by
  rw [stripFn]; split <;> rfl

theorem plainB_stripModule (m : Module) (h : m.plainB = true) :
    (stripModule m).plainB = true := by
  simp only [Module.plainB, stripModule, Bool.and_eq_true, List.all_eq_true] at h ⊢
  refine ⟨h.1, ?_⟩
  intro f hf
  rw [List.mem_map] at hf
  rcases hf with ⟨g, hg, rfl⟩
  rw [stripFn_body]
  exact h.2 g hg

theorem mergeFn_cases (src : List Func) (f : Func) :
    mergeFn src f = f ∨ mergeFn src f ∈ src := by
  rw [mergeFn]
  split
  · cases hfind : src.find? (fun g => g.name == f.name && !g.isDecl) with
    | none => left; rfl
    | some g => right; exact List.mem_of_find?_eq_some hfind
  · left; rfl

theorem plainB_linkInModule (d s lm : Module) (hd : d.plainB = true)
    (hs : s.plainB = true) (h : linkInModule d s = some lm) :
    lm.plainB = true := by
  rw [linkInModule] at h
  split at h
  · exact Option.noConfusion h
  · have hlm := Option.some.inj h
    subst hlm
    simp only [Module.plainB, Bool.and_eq_true, List.all_eq_true] at hd hs ⊢
    constructor
    · intro g hg
      rw [List.mem_append] at hg
      rcases hg with hg | hg
      · exact hd.1 g hg
      · exact hs.1 g (List.mem_of_mem_filter hg)
    · intro f hf
      rw [List.mem_append] at hf
      rcases hf with hf | hf
      · rw [List.mem_map] at hf
        rcases hf with ⟨g, hg, rfl⟩
        rcases mergeFn_cases s.functions g with he | he
        · rw [he]; exact hd.2 g hg
        · exact hs.2 _ he
      · exact hs.2 f (List.mem_of_mem_filter hf)

/-- C3 counterexample: with target set containing the name t, a module whose
only function named t is a bare declaration still gets that declaration
recorded in m_target_functions - the claim's "only when it is a definition"
is false at this input. -/
theorem c3_counterexample :
    exDeclFunc ∈ (find_target_functions ["t"] exDeclModule).1 ∧
      exDeclFunc.isDecl = true := by
  constructor
  · decide
  · rfl

/-- C3 (amended): target discovery records every matched function,
declaration or definition alike, into the target-function set, and records
the function type of every matched function into the target-type set. -/
theorem c3_target_discovery_amended (tns : List String) (m : Module)
    (f : Func) :
    (f ∈ (find_target_functions tns m).1 ↔ f ∈ m.functions ∧ f.name ∈ tns) ∧
      (find_target_functions tns m).2 =
        ((find_target_functions tns m).1).map Func.ftype := by
  constructor
  · simp [find_target_functions, List.mem_filter]
  · rfl

/-- C4 counterexample: in a module where the target t directly calls the
non-target definition g of the same function type, the claim's selection
condition holds (g is known but a definition, not an external declaration,
so the claim does not exclude the call), yet collect_calls selects nothing:
the code excludes every direct call to a known non-target, declaration or
definition. -/
theorem c4_counterexample :
    (find_target_functions ["t"] exC4Module).2 = [0] ∧
      specSelected ["t"] [0] exC4Module
        (Instr.call (Callee.direct "g") 0 false TailKind.tckNone false) = true ∧
      gFun.isDecl = false ∧
      collect_calls ["t"] [0] tFun = [] := by
  refine ⟨by decide, by decide, rfl, by decide⟩

/-- C4 (amended): a call is collected for decoration at ordinal n iff it is
the n-th non-inline-asm call of the function, its callee type is a recorded
target type, and its callee is not a known non-target function (declaration
or definition): pointer calls of matching type are always selected, direct
calls to known non-targets never are. -/
theorem c4_selection_amended (tns : List String) (tts : List Nat) (f : Func)
    (n : Nat) (callee : Callee) (ctype : Nat) (tk : TailKind) (inv : Bool) :
    (n, Instr.call callee ctype false tk inv) ∈ collect_calls tns tts f ↔
      ((callEnum f).get? n = some (Instr.call callee ctype false tk inv) ∧
        ctype ∈ tts ∧ ∀ g, callee = Callee.direct g → g ∈ tns) := by
  rw [collect_calls_mem_iff]
  cases callee with
  | direct g =>
    constructor
    · rintro ⟨h1, h2⟩
      simp [selectedB] at h2
      exact ⟨h1, h2.1, fun x hx => by cases hx; exact h2.2⟩
    · rintro ⟨h1, h2, h3⟩
      refine ⟨h1, ?_⟩
      simp [selectedB]
      exact ⟨h2, h3 g rfl⟩
  | pointer vid =>
    constructor
    · rintro ⟨h1, h2⟩
      simp [selectedB] at h2
      exact ⟨h1, h2, fun x hx => Callee.noConfusion hx⟩
    · rintro ⟨h1, h2, h3⟩
      refine ⟨h1, ?_⟩
      simp [selectedB]
      exact h2
  | resolved =>
    constructor
    · rintro ⟨h1, h2⟩
      simp [selectedB] at h2
      exact ⟨h1, h2, fun x hx => Callee.noConfusion hx⟩
    · rintro ⟨h1, h2, h3⟩
      refine ⟨h1, ?_⟩
      simp [selectedB]
      exact h2

/-- C7: target-set construction never returns an empty set - any ok result
is non-empty - and when both configuration sources together yield no name,
it aborts fatally with the diagnostic that names both DRTI_TARGET_NAMES and
DRTI_TARGETS_FILE. -/
theorem c7_targets_nonempty_or_fatal :
    (∀ (en ef : Option String) (tns : List String),
        targets_from_environment en ef = Except.ok tns → tns ≠ []) ∧
      ∀ (en ef : Option String),
        wordsOf en ++ wordsOf ef = [] →
          targets_from_environment en ef = Except.error noTargetsMessage ∧
            List.IsInfix "DRTI_TARGET_NAMES".data noTargetsMessage.data ∧
            List.IsInfix "DRTI_TARGETS_FILE".data noTargetsMessage.data := by
  constructor
  · intro en ef tns h
    rw [targets_from_environment] at h
    split at h
    · exact Except.noConfusion h
    · rename_i hne
      have hw := Except.ok.inj h
      subst hw
      intro hnil
      rw [hnil] at hne
      exact hne rfl
  · intro en ef h
    refine ⟨?_, ?_, ?_⟩
    · rw [targets_from_environment, h]
      rfl
    · exact ⟨"No target functions found. Have you set ".data,
        " and/or DRTI_TARGETS_FILE?".data, by decide⟩
    · exact ⟨"No target functions found. Have you set DRTI_TARGET_NAMES and/or ".data,
        "?".data, by decide⟩

/-- C7 witness: a one-name configuration yields a non-empty set; the empty
configuration yields the fatal diagnostic. -/
theorem c7_witness :
    (["hot"] : List String) ≠ [] ∧
      targets_from_environment none none = Except.error noTargetsMessage :=
  ⟨c7_targets_nonempty_or_fatal.1 (some "hot") none ["hot"] rfl,
   (c7_targets_nonempty_or_fatal.2 none none rfl).1⟩

/-- C9: a module whose target triple is not the supported one is returned
unchanged - same value, so same globals, functions and triple - with the
not-applicable (false) result and no error. -/
theorem c9_unsupported_triple_unchanged (support : Module)
    (en ef : Option String) (m : Module)
    (h : m.targetTriple ≠ supportedTriple) :
    runOnModule support en ef m = Except.ok (false, m, none) := by
  rw [runOnModule, if_pos h]

/-- C9 witness at a concrete aarch64 module. -/
theorem c9_witness :
    runOnModule exSupport (some "hot") none exOtherTriple =
      Except.ok (false, exOtherTriple, none) :=
  c9_unsupported_triple_unchanged exSupport (some "hot") none exOtherTriple
    (by decide)

/-- C10: the triple gate runs before the configuration is read, so for a
module with a foreign triple the pass returns unchanged even under the
empty configuration - which, consulted on its own, would be a fatal abort. -/
theorem c10_triple_check_before_config (support : Module) (m : Module)
    (h : m.targetTriple ≠ supportedTriple) :
    runOnModule support none none m = Except.ok (false, m, none) ∧
      targets_from_environment none none = Except.error noTargetsMessage :=
  ⟨by rw [runOnModule, if_pos h], rfl⟩

/-- C10 witness at a concrete aarch64 module with empty configuration. -/
theorem c10_witness :
    runOnModule exSupport none none exOtherTriple =
      Except.ok (false, exOtherTriple, none) ∧
      targets_from_environment none none = Except.error noTargetsMessage :=
  c10_triple_check_before_config exSupport exOtherTriple (by decide)

/-- C1: every static_callsite global created while decorating a target
function stores the ordinal of its call in the pre-decoration enumeration
of the function's non-inline-asm calls (encounter order over blocks and
instructions): the ordinal indexes callEnum of the original function to
exactly the collected call.  Collection and numbering run on the original
function value, before the landing and call-site mutations. -/
theorem c1_callsite_ordinal_matches_enumeration
    (tns : List String) (tts : List Nat) (f f2 : Func) (gs : List GlobalVar)
    (g : GlobalVar) (rec : CallSiteRec)
    (h : decorate_function tns tts f = Except.ok (f2, gs))
    (hg : g ∈ gs) (hk : g.kind = GlobalKind.callsite rec) :
    ∃ c, (callEnum f).get? rec.ordinal = some c ∧
      (rec.ordinal, c) ∈ collect_calls tns tts f := by
  rw [decorate_function] at h
  split at h
  · exact Except.noConfusion h
  · injection h with hpair
    injection hpair with hf2 hgs
    rw [← hgs] at hg
    rcases List.mem_append.mp hg with hg2 | hg2
    · rw [create_landing_global] at hg2
      simp at hg2
      rcases hg2 with rfl | rfl | rfl <;> exact GlobalKind.noConfusion hk
    · rw [List.mem_map] at hg2
      rcases hg2 with ⟨p, hp, rfl⟩
      rw [create_callsite_global] at hk
      have hrec := GlobalKind.callsite.inj hk
      have hord : rec.ordinal = p.1 := by rw [← hrec]
      have hmem := (collect_calls_mem_iff tns tts f p).mp hp
      refine ⟨p.2, ?_, ?_⟩
      · rw [hord]
        exact hmem.1
      · rw [hord]
        simpa using hp

/-- C1 witness: the one decorated call of exHot gets ordinal 0, which
indexes callEnum exHot to that same call. -/
theorem c1_witness :
    ∃ c, (callEnum exHot).get? 0 = some c ∧
      (0, c) ∈ collect_calls ["hot"] [0] exHot :=
  c1_callsite_ordinal_matches_enumeration ["hot"] [0] exHot exDecoratedFn
    exDecoratedGs (create_callsite_global "hot" "_drti_landing_hot" 0)
    ⟨0, "_drti_landing_hot", 0⟩ rfl (by decide) rfl

/-- C2: whenever the pass embeds a reflect descriptor, the embedded snapshot
is the module state after support linking and after optnone/noinline
stripping but before any decoration: it equals stripModule of the link
result, and (for decoration-free input and support modules) it contains no
decoration instruction and no landing or call-site global. -/
theorem c2_snapshot_predecoration (support : Module)
    (en ef : Option String) (m m2 : Module) (b : Bool) (r : Reflect)
    (hm : m.plainB = true) (hs : support.plainB = true)
    (h : runOnModule support en ef m = Except.ok (b, m2, some r)) :
    ∃ lm, linkInModule m support = some lm ∧
      r.snapshot = stripModule lm ∧ r.snapshot.plainB = true := by
  rw [runOnModule] at h
  split at h
  · simp at h
  · split at h
    · exact Except.noConfusion h
    · split at h
      · simp at h
      · split at h
        · simp at h
        · rename_i lm hlm
          split at h
          · simp at h
          · split at h
            · exact Except.noConfusion h
            · have hr : (create_self lm).2 = r :=
                Option.some.inj (congrArg (fun t => t.2.2) (Except.ok.inj h))
              refine ⟨lm, hlm, ?_, ?_⟩
              · rw [← hr]
                rfl
              · rw [← hr]
                exact plainB_stripModule lm
                  (plainB_linkInModule m support lm hm hs hlm)

/-- C2 witness: the concrete pipeline run on exModule embeds exactly the
stripped link of exModule and exSupport, free of decoration artifacts. -/
theorem c2_witness :
    ∃ lm, linkInModule exModule exSupport = some lm ∧
      exReflect.snapshot = stripModule lm ∧ exReflect.snapshot.plainB = true :=
  c2_snapshot_predecoration exSupport (some "hot") none exModule exFinal true
    exReflect (by decide) (by decide) rfl

/-- C5: for every collected call, decoration creates the callsite record
with that call's ordinal and a reference to the owning landing global, and
replaces the call by the sequence: bitcast of the original target, the
resolve-call-target invocation (_drti_call_from) on (callsite, caller,
original target), the resolved_target GEP, its load, the cast back to the
call's original signature, the _drti_set_caller marker immediately before
the rewritten call, and the rewritten call itself - now targeting the
resolved value and forced to TCK_NoTail. -/
theorem c5_decorate_call_shape (tns : List String) (tts : List Nat)
    (f f2 : Func) (gs : List GlobalVar) (n : Nat) (callee : Callee)
    (ctype : Nat) (tk : TailKind)
    (h : decorate_function tns tts f = Except.ok (f2, gs))
    (hp : (n, Instr.call callee ctype false tk false) ∈
      collect_calls tns tts f) :
    create_callsite_global f.name ("_drti_landing_" ++ f.name) n ∈ gs ∧
      create_callsite_global f.name ("_drti_landing_" ++ f.name) n =
        ⟨"_drti_callsite_" ++ f.name,
          GlobalKind.callsite ⟨0, "_drti_landing_" ++ f.name, n⟩⟩ ∧
      decoratedSeq ("_drti_callsite_" ++ f.name) n
          (Instr.call callee ctype false tk false) =
        [Instr.castOldTarget callee,
         Instr.callFrom ("_drti_callsite_" ++ f.name) n callee,
         Instr.gepResolved, Instr.loadResolved, Instr.castResolved,
         Instr.callSetCaller,
         Instr.call Callee.resolved ctype false TailKind.tckNoTail false] ∧
      ∃ f1, add_landing_update ("_drti_landing_" ++ f.name) f = Except.ok f1 ∧
        f2.body = decorateBody ("_drti_callsite_" ++ f.name)
          ((collect_calls tns tts f).map Prod.fst) f1.body := by
  rw [decorate_function] at h
  split at h
  · exact Except.noConfusion h
  · rename_i f1 heq
    injection h with hpair
    injection hpair with hf2 hgs
    refine ⟨?_, rfl, rfl, f1, heq, ?_⟩
    · rw [← hgs]
      apply List.mem_append.mpr
      right
      apply List.mem_map.mpr
      exact ⟨(n, Instr.call callee ctype false tk false), hp, rfl⟩
    · rw [← hf2]

/-- C5 witness at the single collected call of exHot. -/
theorem c5_witness :
    create_callsite_global "hot" "_drti_landing_hot" 0 ∈ exDecoratedGs ∧
      create_callsite_global "hot" "_drti_landing_hot" 0 =
        ⟨"_drti_callsite_hot",
          GlobalKind.callsite ⟨0, "_drti_landing_hot", 0⟩⟩ ∧
      decoratedSeq "_drti_callsite_hot" 0
          (Instr.call (Callee.pointer 7) 0 false TailKind.tckNone false) =
        [Instr.castOldTarget (Callee.pointer 7),
         Instr.callFrom "_drti_callsite_hot" 0 (Callee.pointer 7),
         Instr.gepResolved, Instr.loadResolved, Instr.castResolved,
         Instr.callSetCaller,
         Instr.call Callee.resolved 0 false TailKind.tckNoTail false] ∧
      ∃ f1, add_landing_update "_drti_landing_hot" exHot = Except.ok f1 ∧
        exDecoratedFn.body = decorateBody "_drti_callsite_hot"
          ((collect_calls ["hot"] [0] exHot).map Prod.fst) f1.body :=
  c5_decorate_call_shape ["hot"] [0] exHot exDecoratedFn exDecoratedGs 0
    (Callee.pointer 7) 0 TailKind.tckNone rfl (by decide)

/-- C6: add_landing_update builds a four-block state machine whose
execution, for every outcome of the alignment test and the magic probe,
invokes _drti_landed exactly when both succeed, and merges into the
drtiCallerTreenode phi the resolved treenode on that path and the null
caller handle on the not-aligned and probe-mismatch paths. -/
theorem c6_landing_state_machine (ln : String) (f f2 : Func)
    (entry : BasicBlock) (rest : List BasicBlock) (a m : Bool)
    (hbody : f.body = entry :: rest)
    (h1 : entry.name ≠ "drti_land1") (h2 : entry.name ≠ "drti_land2")
    (h3 : entry.name ≠ "drti_land3")
    (hrest : ∀ b ∈ rest, b.name ≠ "drti_land2" ∧ b.name ≠ "drti_land3")
    (h : add_landing_update ln f = Except.ok f2) :
    runLanding f2.body a m 5 "" entry.name false =
      some ⟨a && m,
        some (if a && m then PhiIn.treenode else PhiIn.nullTreenode)⟩ := by
  simp only [add_landing_update, hbody] at h
  split at h
  · exact Except.noConfusion h
  · have hb2 := congrArg Func.body (Except.ok.inj h)
    rw [← hb2]
    exact runLanding_landingBody entry.name ln _ _ rest a m
      (splitAllocas_fst_alloca entry.instrs) h1 h2 h3 hrest

/-- C6 witness: on exHot (aligned and magic both succeeding) the machine
reports the landing and yields the treenode phi value. -/
theorem c6_witness :
    runLanding exLanded.body true true 5 "" "entry" false =
      some ⟨true, some PhiIn.treenode⟩ :=
  c6_landing_state_machine "_drti_landing_hot" exHot exLanded
    ⟨"entry",
      [Instr.alloca 0,
       Instr.call (Callee.pointer 7) 0 false TailKind.tckNone false,
       Instr.ret]⟩
    [] true true rfl (by decide) (by decide) (by decide)
    (by intro b hb; cases hb) rfl

/-- C8: when, after a successful support link, any expected type or hand-off
routine is missing, the pass performs no snapshot embedding and no
decoration: it returns the merely support-linked module with no reflect
descriptor and reports true (no fatal error) to the caller. -/
theorem c8_helpers_missing_soft_skip (support : Module)
    (en ef : Option String) (m lm : Module) (tns : List String)
    (h1 : m.targetTriple = supportedTriple)
    (h2 : targets_from_environment en ef = Except.ok tns)
    (h3 : (find_target_functions tns m).1.isEmpty = false)
    (h4 : linkInModule m support = some lm)
    (h5 : helpers_ok lm = false) :
    runOnModule support en ef m = Except.ok (true, lm, none) := by
  rw [runOnModule, if_neg (not_not_intro h1), h2]
  show (if (find_target_functions tns m).1.isEmpty = true then _ else _) = _
  rw [h3]
  show (match linkInModule m support with
    | none => _
    | some lm => _) = _
  rw [h4]
  show (if (!helpers_ok lm) = true then _ else _) = _
  rw [h5]
  rfl

/-- C8 witness: linking exModule with an empty support module leaves the
helpers missing; the pass returns the linked module untouched with no
reflect descriptor. -/
theorem c8_witness :
    runOnModule exEmptySupport (some "hot") none exModule =
      Except.ok (true, exLinkedEmpty, none) :=
  c8_helpers_missing_soft_skip exEmptySupport (some "hot") none exModule
    exLinkedEmpty ["hot"] rfl rfl rfl rfl rfl

end drti
